import Mathlib

/-!
Shallow embedding of the simulation core of `src/app/src/App.js`
(the `Simulation` component): the data model (`initialSimState`),
the transition function `runSimulationCycle`, and the bounded event
log `logToSim`.  Goal payloads are the literal strings the source
builds and parses with its quoted-substring regex; strings are modelled as
`List Char`.  The single `Math.random()` draw of a step is modelled
as a rational argument `r`; JavaScript exceptions (null regex match,
property access on `undefined`) are modelled as `Except.error`, and
the React caller, which keeps its previous state when the updater
throws, is modelled by `applyStep`.
-/

namespace HizawyeAI

/-- JavaScript strings, modelled as lists of characters. -/
abbrev Str := List Char

/-- The single-quote character used as delimiter in goal payloads. -/
def quoteChar : Char := Char.ofNat 39

/-- Character data of a string literal. -/
def strL (s : String) : Str := s.data

/-- The `state` object of the simulation: the three drives. -/
structure DriveState where
  curiosity : Int
  boredom : Int
  pain : Int
deriving DecidableEq, Repr

/-- The `goals` object: active queue (front = current goal) and completed list. -/
structure GoalQueue where
  active : List Str
  completed : List Str
deriving DecidableEq, Repr

/-- A node of `memory.nodes`: position and understood flag. -/
structure ConceptNode where
  x : Int
  y : Int
  understood : Bool
deriving DecidableEq, Repr

/-- An entry of `memory.links`. -/
structure Link where
  source : Str
  target : Str
deriving DecidableEq, Repr

/-- The `memory` object: keyed node map (JS object, insertion order) and link list. -/
structure MemoryGraph where
  nodes : List (Str × ConceptNode)
  links : List Link
deriving DecidableEq, Repr

/-- The whole `simData` value held by the `Simulation` component. -/
structure SimState where
  state : DriveState
  goals : GoalQueue
  memory : MemoryGraph
  focus : Str
deriving DecidableEq, Repr

/-- Severity tag of a log entry (`type` argument of `logToSim`). -/
inductive LogType
  | info
  | warn
  | success
  | critical
deriving DecidableEq, Repr

/-- One entry of the thought log. -/
structure LogEntry where
  type : LogType
  message : Str
deriving DecidableEq, Repr

/-- JavaScript run-time failures a cycle can raise: the regex match on the
goal returning `null`, or a property access on a missing node. -/
inductive StepError
  | malformedGoal
  | unknownConcept (c : Str)
deriving DecidableEq, Repr

/-! ### String helpers used by the source

The match of the quoted-substring regex on a goal extracts the text between
the first quote and the next quote, failing when the goal does not contain
two quotes.
`goal.includes(pat)` is substring containment. -/

/-- Remainder of the string after the first quote character, if any. -/
def afterQuote : Str → Option Str
  | [] => none
  | c :: rest => if c = quoteChar then some rest else afterQuote rest

/-- Characters before the next quote character, if a quote occurs. -/
def upToQuote : Str → Option Str
  | [] => none
  | c :: rest => if c = quoteChar then some [] else (upToQuote rest).map (c :: ·)

/-- The capture group of the quoted-substring regex match on a goal: the text between the first
quote and the following quote; `none` when the match is `null`. -/
def extractQuoted (s : Str) : Option Str :=
  (afterQuote s).bind upToQuote

/-- `hay.includes(needle)` of JavaScript. -/
def hasSub (needle : Str) : Str → Bool
  | [] => needle.isEmpty
  | c :: rest => needle.isPrefixOf (c :: rest) || hasSub needle rest

/-! ### The node map (a JS object keyed by concept-id strings) -/

/-- `nodes[k]`: value of key `k` in the node map. -/
def lookupNode : List (Str × ConceptNode) → Str → Option ConceptNode
  | [], _ => none
  | (k2, v) :: rest, k => if k2 = k then some v else lookupNode rest k

/-- `nodes[k] = v`: overwrite an existing key in place, else append
(JS object insertion-order semantics). -/
def setNode : List (Str × ConceptNode) → Str → ConceptNode → List (Str × ConceptNode)
  | [], k, v => [(k, v)]
  | (k2, v2) :: rest, k, v =>
      if k2 = k then (k2, v) :: rest else (k2, v2) :: setNode rest k v

/-! ### Goal strings and log messages built by the source -/

/-- Dispatch pattern of the first branch: `goal.includes("Deepen understanding")`. -/
def deepenPat : Str := strL "Deepen understanding"

/-- Dispatch pattern of the second branch: `goal.includes("Break down")`. -/
def breakPat : Str := strL "Break down"

/-- The goal text `Deepen understanding of the concept:` followed by the quoted concept. -/
def mkDeepen (c : Str) : Str :=
  strL "Deepen understanding of the concept: " ++ quoteChar :: (c ++ [quoteChar])

/-- The goal text `Break down the concept:` followed by the quoted concept. -/
def mkBreakDown (c : Str) : Str :=
  strL "Break down the concept: " ++ quoteChar :: (c ++ [quoteChar])

/-- The goal text `Expand knowledge from` followed by the quoted concept. -/
def mkExpand (c : Str) : Str :=
  strL "Expand knowledge from " ++ quoteChar :: (c ++ [quoteChar])

/-- `Goal-directed focus: <strong><c></strong>`. -/
def focusMsg (c : Str) : Str :=
  strL "Goal-directed focus: <strong>" ++ c ++ strL "</strong>"

/-- `LLM response malformed. Rejecting thought.` -/
def malformedMsg : Str := strL "LLM response malformed. Rejecting thought."

/-- The pain-threshold message, mentioning the quoted concept. -/
def painMsg (c : Str) : Str :=
  strL "Pain threshold reached for " ++ quoteChar :: (c ++ quoteChar :: strL ". This is too difficult.")

/-- `New Strategy: Break down the concept.` -/
def strategyMsg : Str := strL "New Strategy: Break down the concept."

/-- The success message of a deepen resolution, mentioning the quoted concept. -/
def understoodMsg (c : Str) : Str :=
  strL "Successfully understood " ++ quoteChar :: (c ++ quoteChar :: strL ". Storing memory.")

/-- The success message of a breakdown, mentioning the quoted concept. -/
def brokeMsg (c : Str) : Str :=
  strL "Successfully broke down " ++ quoteChar :: (c ++ quoteChar :: strL ".")

/-- `New sub-concepts discovered: <a>, <b>`. -/
def subConceptsMsg (a b : Str) : Str :=
  strL "New sub-concepts discovered: " ++ a ++ strL ", " ++ b

/-- `Idle mode. No active goals.` -/
def idleMsg : Str := strL "Idle mode. No active goals."

/-- `Boredom threshold reached. Seeking novelty.` -/
def noveltyMsg : Str := strL "Boredom threshold reached. Seeking novelty."

/-- `Mind wanders to: <strong><c></strong>`. -/
def wanderMsg (c : Str) : Str :=
  strL "Mind wanders to: <strong>" ++ c ++ strL "</strong>"

/-! ### The transition function -/

/-- The `Deepen understanding` branch of `runSimulationCycle` (App.js 265-281),
run on the state whose focus is already set to `concept`.  The failure arm
raises pain by 25 (capped at 100) and escalates at pain ≥ 80; the success arm
requires the focused node to exist, marks it understood, moves the goal to
`completed` and lowers pain by 20 (floored at 0). -/
def deepenStep (s : SimState) (goal : Str) (restGoals : List Str) (concept : Str)
    (r : Rat) : Except StepError (SimState × List LogEntry) :=
  if r < mkRat 1 4 ∨ s.state.pain > 50 then
    if min 100 (s.state.pain + 25) ≥ 80 then
      Except.ok
        ({ s with
            state := { s.state with pain := 0 },
            goals := { s.goals with active := mkBreakDown concept :: restGoals } },
         [⟨LogType.warn, malformedMsg⟩,
          ⟨LogType.critical, painMsg concept⟩,
          ⟨LogType.info, strategyMsg⟩])
    else
      Except.ok
        ({ s with state := { s.state with pain := min 100 (s.state.pain + 25) } },
         [⟨LogType.warn, malformedMsg⟩])
  else
    match lookupNode s.memory.nodes concept with
    | none => Except.error (StepError.unknownConcept concept)
    | some node =>
        Except.ok
          ({ s with
              state := { s.state with pain := max 0 (s.state.pain - 20) },
              goals := { active := restGoals, completed := s.goals.completed ++ [goal] },
              memory := { s.memory with
                nodes := setNode s.memory.nodes concept { node with understood := true } } },
           [⟨LogType.success, understoodMsg concept⟩])

/-- The `Break down` branch of `runSimulationCycle` (App.js 282-297): pops the
head goal, creates nodes `<c>-B` (offset (-10, +25) from the parent) and
`<c>-A` (offset (+5, +25)), links both to `concept`, and pushes
`Deepen understanding` goals so the one for `<c>-A` is at the front. -/
def breakStep (s : SimState) (restGoals : List Str) (concept : Str) :
    Except StepError (SimState × List LogEntry) :=
  match lookupNode s.memory.nodes concept with
  | none => Except.error (StepError.unknownConcept concept)
  | some parent =>
      Except.ok
        ({ s with
            goals := { s.goals with
              active := mkDeepen (concept ++ strL "-A") ::
                        mkDeepen (concept ++ strL "-B") :: restGoals },
            memory := {
              nodes := setNode
                (setNode s.memory.nodes (concept ++ strL "-B")
                  ⟨parent.x - 10, parent.y + 25, false⟩)
                (concept ++ strL "-A") ⟨parent.x + 5, parent.y + 25, false⟩,
              links := s.memory.links ++
                [⟨concept, concept ++ strL "-B"⟩, ⟨concept, concept ++ strL "-A"⟩] } },
         [⟨LogType.success, brokeMsg concept⟩,
          ⟨LogType.info, subConceptsMsg (concept ++ strL "-A") (concept ++ strL "-B")⟩])

/-- The idle branch of `runSimulationCycle` (App.js 298-315): raise boredom by
15 (capped at 100); at boredom ≥ 75 push an `Expand knowledge` goal and reset
boredom, else wander to a uniformly drawn neighbour of the focus when one
exists. -/
def idleStep (s : SimState) (r : Rat) : SimState × List LogEntry :=
  if min 100 (s.state.boredom + 15) ≥ 75 then
    ({ s with
        state := { s.state with boredom := 0 },
        goals := { s.goals with active := s.goals.active ++ [mkExpand s.focus] } },
     [⟨LogType.info, idleMsg⟩, ⟨LogType.critical, noveltyMsg⟩])
  else
    let neighbors :=
      (s.memory.links.filter (fun l => l.source = s.focus ∨ l.target = s.focus)).map
        (fun l => if l.source = s.focus then l.target else l.source)
    if neighbors.isEmpty then
      ({ s with state := { s.state with boredom := min 100 (s.state.boredom + 15) } },
       [⟨LogType.info, idleMsg⟩])
    else
      let nf := neighbors.getD ((r * (neighbors.length : Rat)).floor).toNat s.focus
      ({ s with
          state := { s.state with boredom := min 100 (s.state.boredom + 15) },
          focus := nf },
       [⟨LogType.info, idleMsg⟩, ⟨LogType.info, wanderMsg nf⟩])

/-- The non-empty-queue branch of `runSimulationCycle` (App.js 258-297):
parse the quoted concept of the head goal (`Except.error .malformedGoal` when the
regex match is `null`), set the focus, emit the focus event and dispatch on
the goal text; a goal matching neither `includes` pattern falls through with
no further action. -/
def goalStep (s : SimState) (goal : Str) (restGoals : List Str) (r : Rat) :
    Except StepError (SimState × List LogEntry) :=
  match extractQuoted goal with
  | none => Except.error StepError.malformedGoal
  | some concept =>
    if hasSub deepenPat goal then
      match deepenStep { s with focus := concept } goal restGoals concept r with
      | Except.ok (s2, ev) => Except.ok (s2, ⟨LogType.info, focusMsg concept⟩ :: ev)
      | Except.error e => Except.error e
    else if hasSub breakPat goal then
      match breakStep { s with focus := concept } restGoals concept with
      | Except.ok (s2, ev) => Except.ok (s2, ⟨LogType.info, focusMsg concept⟩ :: ev)
      | Except.error e => Except.error e
    else
      Except.ok ({ s with focus := concept }, [⟨LogType.info, focusMsg concept⟩])

/-- `runSimulationCycle` (App.js 254-318): one simulation cycle on the private
deep copy.  `r` is the value of the `Math.random()` draw of the step. -/
def runSimulationCycle (s : SimState) (r : Rat) :
    Except StepError (SimState × List LogEntry) :=
  match s.goals.active with
  | [] => Except.ok (idleStep s r)
  | goal :: restGoals => goalStep s goal restGoals r

/-- The caller (`setSimData(currentData => ...)`): the return value of the updater
replaces the held state; when the cycle throws, the previous state is kept. -/
def applyStep (s : SimState) (r : Rat) : SimState :=
  match runSimulationCycle s r with
  | Except.ok (s2, _) => s2
  | Except.error _ => s

/-- Events a cycle emits (empty on an aborted cycle). -/
def stepEvents (s : SimState) (r : Rat) : List LogEntry :=
  match runSimulationCycle s r with
  | Except.ok (_, ev) => ev
  | Except.error _ => []

/-- `logToSim` (App.js 250-252): keep the last 20 entries and append the new
one (`[...prevLog.slice(-20), entry]`). -/
def logToSim (log : List LogEntry) (e : LogEntry) : List LogEntry :=
  log.drop (log.length - 20) ++ [e]

/-- `initialSimState` (App.js 47-64), the canonical snapshot. -/
def initialSimState : SimState where
  state := { curiosity := 65, boredom := 0, pain := 0 }
  goals := { active := [mkDeepen (strL "belief system")], completed := [] }
  memory := {
    nodes := [
      (strL "belief system", ⟨50, 20, false⟩),
      (strL "knowledge", ⟨20, 50, false⟩),
      (strL "delusions", ⟨80, 50, false⟩),
      (strL "creativity", ⟨20, 80, false⟩)],
    links := [
      ⟨strL "knowledge", strL "belief system"⟩,
      ⟨strL "belief system", strL "delusions"⟩,
      ⟨strL "knowledge", strL "creativity"⟩] }
  focus := strL "belief system"

/-- States reachable from the canonical snapshot by cycles driven by any
`Math.random()` values (which lie in `[0,1)`). -/
inductive Reachable : SimState → Prop
  | init : Reachable initialSimState
  | step {s : SimState} (r : Rat) (h0 : 0 ≤ r) (h1 : r < 1) (hs : Reachable s) :
      Reachable (applyStep s r)

/-- `n` cycles all driven by the draw `r = 0`. -/
def iterStep : Nat → SimState → SimState
  | 0, s => s
  | n + 1, s => iterStep n (applyStep s 0)

/-- The three drives are within `[0, 100]`. -/
def drivesInRange (s : SimState) : Prop :=
  0 ≤ s.state.curiosity ∧ s.state.curiosity ≤ 100 ∧
  0 ≤ s.state.boredom ∧ s.state.boredom ≤ 100 ∧
  0 ≤ s.state.pain ∧ s.state.pain ≤ 100

instance (s : SimState) : Decidable (drivesInRange s) := by
  unfold drivesInRange; infer_instance

/-- A node position lies in the `[0,100] × [0,100]` box. -/
def inBox (n : ConceptNode) : Prop :=
  0 ≤ n.x ∧ n.x ≤ 100 ∧ 0 ≤ n.y ∧ n.y ≤ 100

instance (n : ConceptNode) : Decidable (inBox n) := by
  unfold inBox; infer_instance

/-- Keys of the four nodes of the canonical snapshot. -/
def initialKeys : List Str :=
  [strL "belief system", strL "knowledge", strL "delusions", strL "creativity"]

/-- Number of `critical` entries among the events of a cycle. -/
def countCrit (ev : List LogEntry) : Nat :=
  (ev.filter (fun e => e.type = LogType.critical)).length

/-- Number of strategy-shift info entries among the events of a cycle. -/
def countStrategy (ev : List LogEntry) : Nat :=
  (ev.filter (fun e => e = ⟨LogType.info, strategyMsg⟩)).length

/-- Nodes whose key holds no dash character lie inside the box; the keys of
the canonical snapshot are dash-free, while every sub-concept key created by
a breakdown ends in a dashed suffix. -/
def boxInv (s : SimState) : Prop :=
  ∀ k : Str, ('-' : Char) ∉ k → ∀ n, lookupNode s.memory.nodes k = some n → inBox n

/-- A state whose head goal carries no quoted payload, so that the regex
match of the cycle is `null`. -/
def malformedState : SimState :=
  { state := { curiosity := 65, boredom := 0, pain := 0 },
    goals := { active := [strL "malformed goal with no quotes"], completed := [] },
    memory := initialSimState.memory,
    focus := strL "belief system" }

/-- A concrete idle state: no active goals, boredom 0 and no links. -/
def idleState : SimState :=
  { state := { curiosity := 65, boredom := 0, pain := 0 },
    goals := { active := [], completed := [] },
    memory := { nodes := initialSimState.memory.nodes, links := [] },
    focus := strL "belief system" }

/-- A concrete state whose head goal is an `Expand knowledge` goal. -/
def expandState : SimState :=
  { state := { curiosity := 65, boredom := 0, pain := 0 },
    goals := { active := [mkExpand (strL "belief system")], completed := [] },
    memory := initialSimState.memory,
    focus := strL "belief system" }

/-- The initial content of the log state of the `Simulation` component. -/
def initialLog : List LogEntry :=
  [⟨LogType.info, strL "Simulation not started. Press \"Run Cycle\"."⟩]

/-! ### Lemmas on goal-string parsing and dispatch -/

theorem afterQuote_append (p : Str) (hp : quoteChar ∉ p) (rest : Str) :
    afterQuote (p ++ quoteChar :: rest) = some rest := by
  induction p with
  | nil => simp [afterQuote]
  | cons a as ih =>
      have ha : a ≠ quoteChar := fun h => hp (h ▸ List.mem_cons_self a as)
      simp only [List.cons_append, afterQuote, if_neg ha]
      exact ih (fun h => hp (List.mem_cons_of_mem a h))

theorem upToQuote_append (c : Str) (hc : quoteChar ∉ c) :
    upToQuote (c ++ [quoteChar]) = some c := by
  induction c with
  | nil => simp [upToQuote]
  | cons a as ih =>
      have ha : a ≠ quoteChar := fun h => hc (h ▸ List.mem_cons_self a as)
      simp only [List.cons_append, upToQuote, if_neg ha, List.append_eq]
      rw [ih (fun h => hc (List.mem_cons_of_mem a h))]
      rfl

theorem extractQuoted_body (p c : Str) (hp : quoteChar ∉ p) (hc : quoteChar ∉ c) :
    extractQuoted (p ++ quoteChar :: (c ++ [quoteChar])) = some c := by
  unfold extractQuoted
  rw [afterQuote_append p hp]
  exact upToQuote_append c hc

theorem extractQuoted_mkDeepen (c : Str) (hc : quoteChar ∉ c) :
    extractQuoted (mkDeepen c) = some c :=
  extractQuoted_body _ c (by decide) hc

theorem extractQuoted_mkBreakDown (c : Str) (hc : quoteChar ∉ c) :
    extractQuoted (mkBreakDown c) = some c :=
  extractQuoted_body _ c (by decide) hc

theorem extractQuoted_mkExpand (c : Str) (hc : quoteChar ∉ c) :
    extractQuoted (mkExpand c) = some c :=
  extractQuoted_body _ c (by decide) hc

theorem hasSub_deepenPat_mkDeepen (c : Str) : hasSub deepenPat (mkDeepen c) = true := rfl

theorem hasSub_breakPat_mkBreakDown (c : Str) : hasSub breakPat (mkBreakDown c) = true := rfl

/-! ### Lemmas on the node map -/

theorem lookupNode_setNode_self (m : List (Str × ConceptNode)) (k : Str) (v : ConceptNode) :
    lookupNode (setNode m k v) k = some v := by
  induction m with
  | nil => simp [setNode, lookupNode]
  | cons e rest ih =>
      obtain ⟨k2, v2⟩ := e
      by_cases h : k2 = k
      · simp [setNode, lookupNode, h]
      · simp [setNode, lookupNode, h, ih]

theorem lookupNode_setNode_ne (m : List (Str × ConceptNode)) (k : Str) (v : ConceptNode)
    (k2 : Str) (hne : k ≠ k2) : lookupNode (setNode m k v) k2 = lookupNode m k2 := by
  induction m with
  | nil => simp [setNode, lookupNode, hne]
  | cons e rest ih =>
      obtain ⟨k3, v3⟩ := e
      by_cases h : k3 = k
      · subst h; simp [setNode, lookupNode, hne]
      · simp [setNode, lookupNode, h, ih]

theorem setNode_length (m : List (Str × ConceptNode)) (k : Str) (v : ConceptNode)
    (h : lookupNode m k = none) : (setNode m k v).length = m.length + 1 := by
  induction m with
  | nil => simp [setNode]
  | cons e rest ih =>
      obtain ⟨k2, v2⟩ := e
      by_cases hk : k2 = k
      · simp [lookupNode, hk] at h
      · simp only [lookupNode, if_neg hk] at h
        simp [setNode, hk, ih h]

/-! ### Shape lemmas for the branches of the cycle -/

theorem runCycle_nil (s : SimState) (r : Rat) (hact : s.goals.active = []) :
    runSimulationCycle s r = Except.ok (idleStep s r) := by
  unfold runSimulationCycle; rw [hact]

theorem runCycle_cons (s : SimState) (r : Rat) (g : Str) (rest : List Str)
    (hact : s.goals.active = g :: rest) :
    runSimulationCycle s r = goalStep s g rest r := by
  unfold runSimulationCycle; rw [hact]

/-- A failing `Deepen understanding` resolution below the pain threshold. -/
theorem runCycle_deepen_fail_low (s : SimState) (r : Rat) (c : Str) (rest : List Str)
    (hact : s.goals.active = mkDeepen c :: rest) (hc : quoteChar ∉ c)
    (hfail : r < mkRat 1 4 ∨ s.state.pain > 50)
    (hlow : min 100 (s.state.pain + 25) < 80) :
    runSimulationCycle s r = Except.ok
      ({ s with state := { s.state with pain := min 100 (s.state.pain + 25) }, focus := c },
       [⟨LogType.info, focusMsg c⟩, ⟨LogType.warn, malformedMsg⟩]) := by
  rw [runCycle_cons s r _ rest hact]
  unfold goalStep
  rw [extractQuoted_mkDeepen c hc]
  simp only [hasSub_deepenPat_mkDeepen, if_true]
  unfold deepenStep
  rw [if_pos hfail, if_neg (by simpa using not_le.mpr hlow)]

/-- A failing `Deepen understanding` resolution that crosses the pain
threshold: the head goal is replaced by the breakdown goal and pain resets. -/
theorem runCycle_deepen_fail_high (s : SimState) (r : Rat) (c : Str) (rest : List Str)
    (hact : s.goals.active = mkDeepen c :: rest) (hc : quoteChar ∉ c)
    (hfail : r < mkRat 1 4 ∨ s.state.pain > 50)
    (hhigh : min 100 (s.state.pain + 25) ≥ 80) :
    runSimulationCycle s r = Except.ok
      ({ s with
          state := { s.state with pain := 0 },
          goals := { s.goals with active := mkBreakDown c :: rest },
          focus := c },
       [⟨LogType.info, focusMsg c⟩, ⟨LogType.warn, malformedMsg⟩,
        ⟨LogType.critical, painMsg c⟩, ⟨LogType.info, strategyMsg⟩]) := by
  rw [runCycle_cons s r _ rest hact]
  unfold goalStep
  rw [extractQuoted_mkDeepen c hc]
  simp only [hasSub_deepenPat_mkDeepen, if_true]
  unfold deepenStep
  rw [if_pos hfail, if_pos (by simpa using hhigh)]

/-- A successful `Deepen understanding` resolution. -/
theorem runCycle_deepen_success (s : SimState) (r : Rat) (c : Str) (rest : List Str)
    (node : ConceptNode)
    (hact : s.goals.active = mkDeepen c :: rest) (hc : quoteChar ∉ c)
    (hr : ¬ r < mkRat 1 4) (hp : ¬ s.state.pain > 50)
    (hnode : lookupNode s.memory.nodes c = some node) :
    runSimulationCycle s r = Except.ok
      ({ s with
          state := { s.state with pain := max 0 (s.state.pain - 20) },
          goals := { active := rest, completed := s.goals.completed ++ [mkDeepen c] },
          memory := { s.memory with
            nodes := setNode s.memory.nodes c { node with understood := true } },
          focus := c },
       [⟨LogType.info, focusMsg c⟩, ⟨LogType.success, understoodMsg c⟩]) := by
  rw [runCycle_cons s r _ rest hact]
  unfold goalStep
  rw [extractQuoted_mkDeepen c hc]
  simp only [hasSub_deepenPat_mkDeepen, if_true]
  unfold deepenStep
  rw [if_neg (by simp [hr, hp])]
  simp only
  rw [show ({ s with focus := c } : SimState).memory.nodes = s.memory.nodes from rfl, hnode]

/-- A `Break down` resolution on a concept whose node exists. -/
theorem runCycle_breakdown (s : SimState) (r : Rat) (c : Str) (rest : List Str)
    (parent : ConceptNode)
    (hact : s.goals.active = mkBreakDown c :: rest) (hc : quoteChar ∉ c)
    (hnd : hasSub deepenPat (mkBreakDown c) = false)
    (hnode : lookupNode s.memory.nodes c = some parent) :
    runSimulationCycle s r = Except.ok
      ({ s with
          goals := { s.goals with
            active := mkDeepen (c ++ strL "-A") :: mkDeepen (c ++ strL "-B") :: rest },
          memory := {
            nodes := setNode
              (setNode s.memory.nodes (c ++ strL "-B") ⟨parent.x - 10, parent.y + 25, false⟩)
              (c ++ strL "-A") ⟨parent.x + 5, parent.y + 25, false⟩,
            links := s.memory.links ++
              [⟨c, c ++ strL "-B"⟩, ⟨c, c ++ strL "-A"⟩] },
          focus := c },
       [⟨LogType.info, focusMsg c⟩, ⟨LogType.success, brokeMsg c⟩,
        ⟨LogType.info, subConceptsMsg (c ++ strL "-A") (c ++ strL "-B")⟩]) := by
  rw [runCycle_cons s r _ rest hact]
  unfold goalStep
  rw [extractQuoted_mkBreakDown c hc]
  simp only [hnd, Bool.false_eq_true, if_false, hasSub_breakPat_mkBreakDown, if_true]
  unfold breakStep
  rw [show ({ s with focus := c } : SimState).memory.nodes = s.memory.nodes from rfl, hnode]

/-- An idle cycle that crosses the boredom threshold. -/
theorem runCycle_idle_high (s : SimState) (r : Rat)
    (hact : s.goals.active = [])
    (hb : min 100 (s.state.boredom + 15) ≥ 75) :
    runSimulationCycle s r = Except.ok
      ({ s with
          state := { s.state with boredom := 0 },
          goals := { s.goals with active := s.goals.active ++ [mkExpand s.focus] } },
       [⟨LogType.info, idleMsg⟩, ⟨LogType.critical, noveltyMsg⟩]) := by
  rw [runCycle_nil s r hact]
  unfold idleStep
  rw [if_pos hb]

/-- An idle cycle below the boredom threshold only raises boredom and
possibly moves the focus; goals, memory and the other drives are unchanged. -/
theorem runCycle_idle_low (s : SimState) (r : Rat)
    (hact : s.goals.active = [])
    (hb : ¬ min 100 (s.state.boredom + 15) ≥ 75) :
    ∃ f ev, runSimulationCycle s r = Except.ok
      ({ s with
          state := { s.state with boredom := min 100 (s.state.boredom + 15) },
          focus := f }, ⟨LogType.info, idleMsg⟩ :: ev) := by
  rw [runCycle_nil s r hact]
  unfold idleStep
  rw [if_neg hb]
  simp only
  split
  · exact ⟨s.focus, [], rfl⟩
  · exact ⟨_, _, rfl⟩

/-! ### Preservation of the drive bounds -/

theorem drives_deepenStep (s : SimState) (goal : Str) (rest : List Str) (c : Str) (r : Rat)
    (s2 : SimState) (ev : List LogEntry)
    (hr : deepenStep s goal rest c r = Except.ok (s2, ev)) (h : drivesInRange s) :
    drivesInRange s2 := by
  unfold drivesInRange at h ⊢
  unfold deepenStep at hr
  repeat' split at hr
  all_goals try (injection hr with hr2; injection hr2 with hs he; subst hs)
  all_goals simp_all
  all_goals omega

theorem drives_breakStep (s : SimState) (rest : List Str) (c : Str)
    (s2 : SimState) (ev : List LogEntry)
    (hr : breakStep s rest c = Except.ok (s2, ev)) (h : drivesInRange s) :
    drivesInRange s2 := by
  unfold drivesInRange at h ⊢
  unfold breakStep at hr
  repeat' split at hr
  all_goals try (injection hr with hr2; injection hr2 with hs he; subst hs)
  all_goals simp_all

theorem drives_idleStep (s : SimState) (r : Rat) (h : drivesInRange s) :
    drivesInRange (idleStep s r).1 := by
  unfold drivesInRange at h ⊢
  unfold idleStep
  split
  · simp; omega
  · dsimp only
    split
    · simp; omega
    · simp; omega

theorem drives_goalStep (s : SimState) (goal : Str) (rest : List Str) (r : Rat)
    (s2 : SimState) (ev : List LogEntry)
    (hr : goalStep s goal rest r = Except.ok (s2, ev)) (h : drivesInRange s) :
    drivesInRange s2 := by
  unfold goalStep at hr
  repeat' split at hr
  · exact absurd hr (by simp)
  · rename_i heq
    injection hr with hr2
    injection hr2 with hs he
    subst hs
    exact drives_deepenStep _ _ _ _ _ _ _ heq h
  · exact absurd hr (by simp)
  · rename_i heq
    injection hr with hr2
    injection hr2 with hs he
    subst hs
    exact drives_breakStep _ _ _ _ _ heq h
  · exact absurd hr (by simp)
  · injection hr with hr2
    injection hr2 with hs he
    subst hs
    exact h

theorem drivesInRange_applyStep (s : SimState) (r : Rat) (h : drivesInRange s) :
    drivesInRange (applyStep s r) := by
  unfold applyStep
  rcases hact : s.goals.active with _ | ⟨g, rest⟩
  · rw [runCycle_nil s r hact]
    exact drives_idleStep s r h
  · rw [runCycle_cons s r g rest hact]
    rcases hr : goalStep s g rest r with e | ⟨s2, ev⟩
    · exact h
    · exact drives_goalStep s g rest r s2 ev hr h

/-- Claim C1: for every reachable SimulationState (reachable from the canonical
initial snapshot by any finite sequence of step calls with any rng values),
the three drive values curiosity, boredom and pain are integers in [0,100]. -/
theorem reachable_drives_in_range (s : SimState) (h : Reachable s) : drivesInRange s := by
  induction h with
  | init => decide
  | step r h0 h1 hs ih => exact drivesInRange_applyStep _ r ih

/-- Witness for C1: the drive bounds at a concrete reachable state, one
always-fail step after the canonical snapshot. -/
theorem reachable_drives_in_range_witness : drivesInRange (applyStep initialSimState 0) :=
  reachable_drives_in_range (applyStep initialSimState 0)
    (Reachable.step 0 (le_refl 0) (by norm_num) Reachable.init)

/-! ### The always-fail escalation scenario -/

theorem applyStep_eq_of_ok (s : SimState) (r : Rat) (s2 : SimState) (ev : List LogEntry)
    (h : runSimulationCycle s r = Except.ok (s2, ev)) : applyStep s r = s2 := by
  unfold applyStep; rw [h]

theorem stepEvents_eq_of_ok (s : SimState) (r : Rat) (s2 : SimState) (ev : List LogEntry)
    (h : runSimulationCycle s r = Except.ok (s2, ev)) : stepEvents s r = ev := by
  unfold stepEvents; rw [h]

theorem focusMsg_ne_strategyMsg (c : Str) : focusMsg c ≠ strategyMsg := by
  intro h
  have h2 : (focusMsg c).head? = strategyMsg.head? := congrArg List.head? h
  rw [show focusMsg c =
        'G' :: (strL "oal-directed focus: <strong>" ++ c ++ strL "</strong>") from rfl,
      show strategyMsg = 'N' :: strL "ew Strategy: Break down the concept." from rfl] at h2
  simp at h2

/-- Claim C2: from a state whose active queue holds a single `Deepen understanding`
goal and whose pain is 0, with every rng draw equal to 0 (forcing the failure
branch), pain is 25 after step 1, 50 after step 2, 75 after step 3; on step 4
the pain-threshold escalation fires: the head goal is replaced in place by the
`Break down` goal for the same concept, pain resets to 0, and exactly one
`Critical` event and one strategy `Info` event are emitted on step 4 and on no
earlier step. -/
theorem alwaysFail_pain_escalation (s : SimState) (c : Str)
    (hc : quoteChar ∉ c) (hact : s.goals.active = [mkDeepen c]) (hpain : s.state.pain = 0) :
    (applyStep s 0).state.pain = 25 ∧
    (applyStep (applyStep s 0) 0).state.pain = 50 ∧
    (applyStep (applyStep (applyStep s 0) 0) 0).state.pain = 75 ∧
    (applyStep (applyStep (applyStep (applyStep s 0) 0) 0) 0).state.pain = 0 ∧
    (applyStep (applyStep (applyStep (applyStep s 0) 0) 0) 0).goals.active = [mkBreakDown c] ∧
    countCrit (stepEvents s 0) = 0 ∧ countStrategy (stepEvents s 0) = 0 ∧
    countCrit (stepEvents (applyStep s 0) 0) = 0 ∧
    countStrategy (stepEvents (applyStep s 0) 0) = 0 ∧
    countCrit (stepEvents (applyStep (applyStep s 0) 0) 0) = 0 ∧
    countStrategy (stepEvents (applyStep (applyStep s 0) 0) 0) = 0 ∧
    countCrit (stepEvents (applyStep (applyStep (applyStep s 0) 0) 0) 0) = 1 ∧
    countStrategy (stepEvents (applyStep (applyStep (applyStep s 0) 0) 0) 0) = 1 := by
  have hfail : (0 : Rat) < mkRat 1 4 := by decide
  have e1 := runCycle_deepen_fail_low s 0 c [] hact hc (Or.inl hfail) (by omega)
  have a1 : applyStep s 0 =
      { s with state := { s.state with pain := min 100 (s.state.pain + 25) }, focus := c } :=
    applyStep_eq_of_ok _ _ _ _ e1
  have v1 : stepEvents s 0 = [⟨LogType.info, focusMsg c⟩, ⟨LogType.warn, malformedMsg⟩] :=
    stepEvents_eq_of_ok _ _ _ _ e1
  have p1 : (applyStep s 0).state.pain = 25 := by rw [a1]; simp; omega
  have hact1 : (applyStep s 0).goals.active = mkDeepen c :: [] := by rw [a1]; exact hact
  have e2 := runCycle_deepen_fail_low (applyStep s 0) 0 c [] hact1 hc (Or.inl hfail) (by omega)
  have a2 : applyStep (applyStep s 0) 0 =
      { applyStep s 0 with
          state := { (applyStep s 0).state with pain := min 100 ((applyStep s 0).state.pain + 25) },
          focus := c } :=
    applyStep_eq_of_ok _ _ _ _ e2
  have v2 : stepEvents (applyStep s 0) 0 =
      [⟨LogType.info, focusMsg c⟩, ⟨LogType.warn, malformedMsg⟩] :=
    stepEvents_eq_of_ok _ _ _ _ e2
  have p2 : (applyStep (applyStep s 0) 0).state.pain = 50 := by rw [a2]; simp; omega
  have hact2 : (applyStep (applyStep s 0) 0).goals.active = mkDeepen c :: [] := by
    rw [a2]; exact hact1
  have e3 := runCycle_deepen_fail_low (applyStep (applyStep s 0) 0) 0 c [] hact2 hc
    (Or.inl hfail) (by omega)
  have a3 : applyStep (applyStep (applyStep s 0) 0) 0 =
      { applyStep (applyStep s 0) 0 with
          state := { (applyStep (applyStep s 0) 0).state with
            pain := min 100 ((applyStep (applyStep s 0) 0).state.pain + 25) },
          focus := c } :=
    applyStep_eq_of_ok _ _ _ _ e3
  have v3 : stepEvents (applyStep (applyStep s 0) 0) 0 =
      [⟨LogType.info, focusMsg c⟩, ⟨LogType.warn, malformedMsg⟩] :=
    stepEvents_eq_of_ok _ _ _ _ e3
  have p3 : (applyStep (applyStep (applyStep s 0) 0) 0).state.pain = 75 := by
    rw [a3]; simp; omega
  have hact3 : (applyStep (applyStep (applyStep s 0) 0) 0).goals.active = mkDeepen c :: [] := by
    rw [a3]; exact hact2
  have e4 := runCycle_deepen_fail_high (applyStep (applyStep (applyStep s 0) 0) 0) 0 c [] hact3 hc
    (Or.inl hfail) (by omega)
  have a4 : applyStep (applyStep (applyStep (applyStep s 0) 0) 0) 0 =
      { applyStep (applyStep (applyStep s 0) 0) 0 with
          state := { (applyStep (applyStep (applyStep s 0) 0) 0).state with pain := 0 },
          goals := { (applyStep (applyStep (applyStep s 0) 0) 0).goals with
            active := mkBreakDown c :: [] },
          focus := c } :=
    applyStep_eq_of_ok _ _ _ _ e4
  have v4 : stepEvents (applyStep (applyStep (applyStep s 0) 0) 0) 0 =
      [⟨LogType.info, focusMsg c⟩, ⟨LogType.warn, malformedMsg⟩,
       ⟨LogType.critical, painMsg c⟩, ⟨LogType.info, strategyMsg⟩] :=
    stepEvents_eq_of_ok _ _ _ _ e4
  refine ⟨p1, p2, p3, ?_, ?_, ?_, ?_, ?_, ?_, ?_, ?_, ?_, ?_⟩
  · rw [a4]
  · rw [a4]
  · rw [v1]; simp [countCrit]
  · rw [v1]; simp [countStrategy, focusMsg_ne_strategyMsg]
  · rw [v2]; simp [countCrit]
  · rw [v2]; simp [countStrategy, focusMsg_ne_strategyMsg]
  · rw [v3]; simp [countCrit]
  · rw [v3]; simp [countStrategy, focusMsg_ne_strategyMsg]
  · rw [v4]; simp [countCrit]
  · rw [v4]; simp [countStrategy, focusMsg_ne_strategyMsg]

/-- Witness for C2: the scenario run from the canonical snapshot (single
`Deepen understanding` goal, pain 0); after four always-fail steps the head
goal is the breakdown goal. -/
theorem alwaysFail_pain_escalation_witness :
    (initialSimState.goals.active = [mkDeepen (strL "belief system")] ∧
      initialSimState.state.pain = 0) ∧
    (applyStep (applyStep (applyStep (applyStep initialSimState 0) 0) 0) 0).goals.active =
      [mkBreakDown (strL "belief system")] :=
  ⟨⟨rfl, rfl⟩,
    (alwaysFail_pain_escalation initialSimState (strL "belief system")
      (by decide) rfl rfl).2.2.2.2.1⟩

/-! ### The breakdown resolution (claim C3) -/

/-- Claim C3: from every state whose active head is the breakdown goal for a
concept `c` present in `memory.nodes` (and with the two sub-concept keys
fresh), one cycle removes that goal from `active` without appending it to
`completed`, adds exactly 2 new nodes named with the `-A` and `-B` suffixes,
adds exactly 2 new links with endpoint `c`, leaves the other nodes untouched,
and leaves exactly 2 new `Deepen understanding` goals at the front of
`active`, the one for the `-A` sub-concept ahead of the one for `-B`. -/
theorem breakdown_step_effects (s : SimState) (r : Rat) (c : Str) (rest : List Str)
    (parent : ConceptNode)
    (hc : quoteChar ∉ c)
    (hact : s.goals.active = mkBreakDown c :: rest)
    (hnd : hasSub deepenPat (mkBreakDown c) = false)
    (hnode : lookupNode s.memory.nodes c = some parent)
    (hA : lookupNode s.memory.nodes (c ++ strL "-A") = none)
    (hB : lookupNode s.memory.nodes (c ++ strL "-B") = none) :
    ∃ s2 ev, runSimulationCycle s r = Except.ok (s2, ev) ∧
      s2.goals.active = mkDeepen (c ++ strL "-A") :: mkDeepen (c ++ strL "-B") :: rest ∧
      s2.goals.completed = s.goals.completed ∧
      s2.memory.nodes.length = s.memory.nodes.length + 2 ∧
      lookupNode s2.memory.nodes (c ++ strL "-A") = some ⟨parent.x + 5, parent.y + 25, false⟩ ∧
      lookupNode s2.memory.nodes (c ++ strL "-B") = some ⟨parent.x - 10, parent.y + 25, false⟩ ∧
      (∀ k, k ≠ c ++ strL "-A" → k ≠ c ++ strL "-B" →
        lookupNode s2.memory.nodes k = lookupNode s.memory.nodes k) ∧
      s2.memory.links = s.memory.links ++ [⟨c, c ++ strL "-B"⟩, ⟨c, c ++ strL "-A"⟩] := by
  have hAB : c ++ strL "-A" ≠ c ++ strL "-B" := by simp; decide
  have e := runCycle_breakdown s r c rest parent hact hc hnd hnode
  refine ⟨_, _, e, rfl, rfl, ?_, ?_, ?_, ?_, rfl⟩
  · show (setNode (setNode s.memory.nodes (c ++ strL "-B") _) (c ++ strL "-A") _).length = _
    rw [setNode_length _ _ _ (by rw [lookupNode_setNode_ne _ _ _ _ (Ne.symm hAB)]; exact hA),
        setNode_length _ _ _ hB]
  · exact lookupNode_setNode_self _ _ _
  · show lookupNode (setNode (setNode s.memory.nodes (c ++ strL "-B") _) (c ++ strL "-A") _) _ = _
    rw [lookupNode_setNode_ne _ _ _ _ hAB]
    exact lookupNode_setNode_self _ _ _
  · intro k hkA hkB
    show lookupNode (setNode (setNode s.memory.nodes (c ++ strL "-B") _) (c ++ strL "-A") _) k = _
    rw [lookupNode_setNode_ne _ _ _ _ (Ne.symm hkA), lookupNode_setNode_ne _ _ _ _ (Ne.symm hkB)]

/-- Witness for claim C3: the breakdown of the initial concept, four
always-fail steps after the canonical snapshot. -/
theorem breakdown_step_effects_witness :
    (iterStep 4 initialSimState).goals.active = [mkBreakDown (strL "belief system")] ∧
    (∃ s2 ev, runSimulationCycle (iterStep 4 initialSimState) 0 = Except.ok (s2, ev) ∧
      s2.goals.active =
        mkDeepen (strL "belief system-A") :: mkDeepen (strL "belief system-B") :: [] ∧
      s2.goals.completed = (iterStep 4 initialSimState).goals.completed ∧
      s2.memory.nodes.length = (iterStep 4 initialSimState).memory.nodes.length + 2 ∧
      lookupNode s2.memory.nodes (strL "belief system-A") = some ⟨55, 45, false⟩ ∧
      lookupNode s2.memory.nodes (strL "belief system-B") = some ⟨40, 45, false⟩ ∧
      (∀ k, k ≠ strL "belief system-A" → k ≠ strL "belief system-B" →
        lookupNode s2.memory.nodes k = lookupNode (iterStep 4 initialSimState).memory.nodes k) ∧
      s2.memory.links = (iterStep 4 initialSimState).memory.links ++
        [⟨strL "belief system", strL "belief system-B"⟩,
         ⟨strL "belief system", strL "belief system-A"⟩]) :=
  ⟨by decide,
   breakdown_step_effects (iterStep 4 initialSimState) 0 (strL "belief system") []
     ⟨50, 20, false⟩ (by decide) (by decide) (by decide) (by decide) (by decide) (by decide)⟩

/-! ### The successful deepen resolution (claim C7) -/

/-- Claim C7: from every state whose active head is a `Deepen understanding`
goal for a concept `c` present in `memory.nodes`, when the cycle takes the
success branch (rng draw at least 0.25 and pain at most 50) the node of `c`
gets `understood := true`, the goal moves from the front of `active` to the
end of `completed`, pain becomes `max 0 (pain - 20)`, a `Success` event is
emitted, and no other node, link, drive or goal changes. -/
theorem deepen_success_effects (s : SimState) (r : Rat) (c : Str) (rest : List Str)
    (node : ConceptNode)
    (hc : quoteChar ∉ c)
    (hact : s.goals.active = mkDeepen c :: rest)
    (hr : ¬ r < mkRat 1 4) (hp : ¬ s.state.pain > 50)
    (hnode : lookupNode s.memory.nodes c = some node) :
    ∃ s2 ev, runSimulationCycle s r = Except.ok (s2, ev) ∧
      lookupNode s2.memory.nodes c = some ⟨node.x, node.y, true⟩ ∧
      (∀ k, k ≠ c → lookupNode s2.memory.nodes k = lookupNode s.memory.nodes k) ∧
      s2.goals.active = rest ∧
      s2.goals.completed = s.goals.completed ++ [mkDeepen c] ∧
      s2.state.pain = max 0 (s.state.pain - 20) ∧
      s2.state.boredom = s.state.boredom ∧
      s2.state.curiosity = s.state.curiosity ∧
      s2.memory.links = s.memory.links ∧
      ev = [⟨LogType.info, focusMsg c⟩, ⟨LogType.success, understoodMsg c⟩] := by
  have e := runCycle_deepen_success s r c rest node hact hc hr hp hnode
  refine ⟨_, _, e, ?_, ?_, rfl, rfl, rfl, rfl, rfl, rfl, rfl⟩
  · show lookupNode (setNode s.memory.nodes c _) c = _
    exact lookupNode_setNode_self _ _ _
  · intro k hk
    show lookupNode (setNode s.memory.nodes c _) k = _
    exact lookupNode_setNode_ne _ _ _ _ (Ne.symm hk)

/-- Witness for claim C7: a successful first step on the canonical snapshot
with rng draw one half. -/
theorem deepen_success_effects_witness :
    (initialSimState.goals.active = [mkDeepen (strL "belief system")] ∧
      initialSimState.state.pain = 0) ∧
    (∃ s2 ev, runSimulationCycle initialSimState (mkRat 1 2) = Except.ok (s2, ev) ∧
      lookupNode s2.memory.nodes (strL "belief system") = some ⟨50, 20, true⟩ ∧
      (∀ k, k ≠ strL "belief system" →
        lookupNode s2.memory.nodes k = lookupNode initialSimState.memory.nodes k) ∧
      s2.goals.active = [] ∧
      s2.goals.completed = initialSimState.goals.completed ++ [mkDeepen (strL "belief system")] ∧
      s2.state.pain = 0 ∧
      s2.state.boredom = initialSimState.state.boredom ∧
      s2.state.curiosity = initialSimState.state.curiosity ∧
      s2.memory.links = initialSimState.memory.links ∧
      ev = [⟨LogType.info, focusMsg (strL "belief system")⟩,
            ⟨LogType.success, understoodMsg (strL "belief system")⟩]) :=
  ⟨⟨rfl, rfl⟩,
   deepen_success_effects initialSimState (mkRat 1 2) (strL "belief system") []
     ⟨50, 20, false⟩ (by decide) rfl (by decide) (by decide) rfl⟩

/-! ### Node positions (claim C4) -/

theorem reachable_iterStep (n : Nat) (s : SimState) (h : Reachable s) :
    Reachable (iterStep n s) := by
  induction n generalizing s with
  | zero => exact h
  | succ n ih => exact ih _ (Reachable.step 0 (le_refl 0) (by norm_num) h)

/-- Counterexample to claim C4: a reachable state (twenty always-fail steps
from the canonical snapshot, producing four nested breakdowns) holds a node
at position (70, 120), outside the `[0,100]` box. -/
theorem node_outside_box_reachable :
    ¬ (∀ s, Reachable s → ∀ k n, lookupNode s.memory.nodes k = some n → inBox n) := by
  intro h
  exact absurd
    (h (iterStep 20 initialSimState) (reachable_iterStep 20 _ Reachable.init)
      (strL "belief system-A-A-A-A") ⟨70, 120, false⟩ (by decide))
    (by decide)

theorem lookupNode_mem (m : List (Str × ConceptNode)) (k : Str) (n : ConceptNode)
    (h : lookupNode m k = some n) : (k, n) ∈ m := by
  induction m with
  | nil => simp [lookupNode] at h
  | cons e rest ih =>
      obtain ⟨k2, v⟩ := e
      by_cases hk : k2 = k
      · subst hk
        have h2 : lookupNode ((k2, v) :: rest) k2 = some v := by simp [lookupNode]
        rw [h2] at h
        injection h with h3
        subst h3
        exact List.mem_cons_self _ _
      · simp only [lookupNode, if_neg hk] at h
        exact List.mem_cons_of_mem _ (ih h)

theorem idleStep_memory (s : SimState) (r : Rat) : (idleStep s r).1.memory = s.memory := by
  unfold idleStep
  split
  · rfl
  · dsimp only
    split
    · rfl
    · rfl

theorem deepenStep_nodes (s : SimState) (goal : Str) (rest : List Str) (c : Str) (r : Rat)
    (s2 : SimState) (ev : List LogEntry)
    (h : deepenStep s goal rest c r = Except.ok (s2, ev)) :
    s2.memory.nodes = s.memory.nodes ∨
    (∃ node, lookupNode s.memory.nodes c = some node ∧
      s2.memory.nodes = setNode s.memory.nodes c { node with understood := true }) := by
  unfold deepenStep at h
  repeat' split at h
  · injection h with h2; injection h2 with hs he; subst hs; exact Or.inl rfl
  · injection h with h2; injection h2 with hs he; subst hs; exact Or.inl rfl
  · exact absurd h (by simp)
  · rename_i node heq
    injection h with h2; injection h2 with hs he; subst hs
    exact Or.inr ⟨node, heq, rfl⟩

theorem breakStep_nodes (s : SimState) (rest : List Str) (c : Str)
    (s2 : SimState) (ev : List LogEntry)
    (h : breakStep s rest c = Except.ok (s2, ev)) :
    ∃ parent, lookupNode s.memory.nodes c = some parent ∧
      s2.memory.nodes = setNode
        (setNode s.memory.nodes (c ++ strL "-B") ⟨parent.x - 10, parent.y + 25, false⟩)
        (c ++ strL "-A") ⟨parent.x + 5, parent.y + 25, false⟩ := by
  unfold breakStep at h
  repeat' split at h
  · exact absurd h (by simp)
  · rename_i parent heq
    injection h with h2; injection h2 with hs he; subst hs
    exact ⟨parent, heq, rfl⟩

theorem goalStep_nodes (s : SimState) (g : Str) (rest : List Str) (r : Rat)
    (s2 : SimState) (ev : List LogEntry)
    (h : goalStep s g rest r = Except.ok (s2, ev)) :
    s2.memory.nodes = s.memory.nodes ∨
    (∃ c node, lookupNode s.memory.nodes c = some node ∧
      s2.memory.nodes = setNode s.memory.nodes c { node with understood := true }) ∨
    (∃ c parent, lookupNode s.memory.nodes c = some parent ∧
      s2.memory.nodes = setNode
        (setNode s.memory.nodes (c ++ strL "-B") ⟨parent.x - 10, parent.y + 25, false⟩)
        (c ++ strL "-A") ⟨parent.x + 5, parent.y + 25, false⟩) := by
  unfold goalStep at h
  repeat' split at h
  · exact absurd h (by simp)
  · rename_i heq
    injection h with h2; injection h2 with hs he; subst hs
    rcases deepenStep_nodes _ _ _ _ _ _ _ heq with h3 | ⟨node, hn, h3⟩
    · exact Or.inl h3
    · exact Or.inr (Or.inl ⟨_, node, hn, h3⟩)
  · exact absurd h (by simp)
  · rename_i heq
    injection h with h2; injection h2 with hs he; subst hs
    obtain ⟨parent, hn, h3⟩ := breakStep_nodes _ _ _ _ _ heq
    exact Or.inr (Or.inr ⟨_, parent, hn, h3⟩)
  · exact absurd h (by simp)
  · injection h with h2; injection h2 with hs he; subst hs
    exact Or.inl rfl

theorem boxInv_initial : boxInv initialSimState := by
  intro k hk n hn
  have hmem := lookupNode_mem _ _ _ hn
  simp only [initialSimState, List.mem_cons, List.not_mem_nil, or_false, Prod.mk.injEq] at hmem
  rcases hmem with ⟨rfl, rfl⟩ | ⟨rfl, rfl⟩ | ⟨rfl, rfl⟩ | ⟨rfl, rfl⟩ <;> decide

theorem boxInv_applyStep (s : SimState) (r : Rat) (h : boxInv s) : boxInv (applyStep s r) := by
  unfold applyStep
  rcases hact : s.goals.active with _ | ⟨g, rest⟩
  · rw [runCycle_nil s r hact]
    intro k hk n hn
    rw [show (idleStep s r).1.memory = s.memory from idleStep_memory s r] at hn
    exact h k hk n hn
  · rw [runCycle_cons s r g rest hact]
    rcases hg : goalStep s g rest r with e | ⟨s2, ev⟩
    · exact h
    · intro k hk n hn
      rcases goalStep_nodes s g rest r s2 ev hg with h3 | ⟨c0, node, hlk, h3⟩ | ⟨c0, parent, hlk, h3⟩
      · rw [h3] at hn; exact h k hk n hn
      · rw [h3] at hn
        by_cases hck : c0 = k
        · subst hck
          rw [lookupNode_setNode_self] at hn
          injection hn with hn2
          subst hn2
          have h4 := h c0 hk node hlk
          unfold inBox at h4 ⊢
          simpa using h4
        · rw [lookupNode_setNode_ne _ _ _ _ hck] at hn
          exact h k hk n hn
      · have hkA : c0 ++ strL "-A" ≠ k := by
          intro hkk; rw [← hkk] at hk
          exact hk (List.mem_append.mpr (Or.inr (by decide)))
        have hkB : c0 ++ strL "-B" ≠ k := by
          intro hkk; rw [← hkk] at hk
          exact hk (List.mem_append.mpr (Or.inr (by decide)))
        rw [h3, lookupNode_setNode_ne _ _ _ _ hkA, lookupNode_setNode_ne _ _ _ _ hkB] at hn
        exact h k hk n hn

theorem boxInv_reachable (s : SimState) (h : Reachable s) : boxInv s := by
  induction h with
  | init => exact boxInv_initial
  | step r h0 h1 hs ih => exact boxInv_applyStep _ r ih

/-- Claim C4 (amended): in every reachable SimulationState the four nodes of
the canonical snapshot keep positions within the `[0,100]` box; sub-concept
nodes created by breakdowns are offset from their parent by (-10, +25) or
(+5, +25) and can leave the box, so the bound does not extend to them. -/
theorem initial_nodes_in_box (s : SimState) (h : Reachable s) :
    ∀ k ∈ initialKeys, ∀ n, lookupNode s.memory.nodes k = some n → inBox n := by
  intro k hk n hn
  have hdash : ('-' : Char) ∉ k := by
    simp only [initialKeys, List.mem_cons, List.not_mem_nil, or_false] at hk
    rcases hk with rfl | rfl | rfl | rfl <;> decide
  exact boxInv_reachable s h k hdash n hn

/-- Witness for the amended claim C4: the initial node of the snapshot. -/
theorem initial_nodes_in_box_witness :
    (strL "belief system" ∈ initialKeys) ∧ inBox (⟨50, 20, false⟩ : ConceptNode) :=
  ⟨by decide,
   initial_nodes_in_box initialSimState Reachable.init (strL "belief system")
     (by decide) ⟨50, 20, false⟩ rfl⟩

/-! ### Focus versus the head of the queue (claim C5) -/

theorem deepenStep_focus (s : SimState) (goal : Str) (rest : List Str) (c : Str) (r : Rat)
    (s2 : SimState) (ev : List LogEntry)
    (h : deepenStep s goal rest c r = Except.ok (s2, ev)) : s2.focus = s.focus := by
  unfold deepenStep at h
  repeat' split at h
  all_goals try (injection h with h2; injection h2 with hs he; subst hs; rfl)
  exact absurd h (by simp)

theorem breakStep_focus (s : SimState) (rest : List Str) (c : Str)
    (s2 : SimState) (ev : List LogEntry)
    (h : breakStep s rest c = Except.ok (s2, ev)) : s2.focus = s.focus := by
  unfold breakStep at h
  repeat' split at h
  all_goals try (injection h with h2; injection h2 with hs he; subst hs; rfl)
  exact absurd h (by simp)

/-- Counterexample to claim C5: after five always-fail steps from the
canonical snapshot (four failures and one breakdown) the active queue is
non-empty but the focus is the parent concept, not the concept of the new
head goal. -/
theorem focus_head_concept_claim_false :
    ¬ (∀ s, Reachable s → ∀ g rest c, s.goals.active = g :: rest →
        extractQuoted g = some c → s.focus = c) := by
  intro h
  exact absurd
    (h (iterStep 5 initialSimState) (reachable_iterStep 5 _ Reachable.init)
      (mkDeepen (strL "belief system-A")) [mkDeepen (strL "belief system-B")]
      (strL "belief system-A") (by decide) (by decide))
    (by decide)

theorem goalStep_eq_parsed (s : SimState) (g : Str) (rest : List Str) (r : Rat) (c : Str)
    (hg : extractQuoted g = some c) :
    goalStep s g rest r =
      if hasSub deepenPat g then
        match deepenStep { s with focus := c } g rest c r with
        | Except.ok (s2, ev) => Except.ok (s2, ⟨LogType.info, focusMsg c⟩ :: ev)
        | Except.error e => Except.error e
      else if hasSub breakPat g then
        match breakStep { s with focus := c } rest c with
        | Except.ok (s2, ev) => Except.ok (s2, ⟨LogType.info, focusMsg c⟩ :: ev)
        | Except.error e => Except.error e
      else
        Except.ok ({ s with focus := c }, [⟨LogType.info, focusMsg c⟩]) := by
  unfold goalStep; rw [hg]

/-- Claim C5 (amended): every cycle that starts from a non-empty active queue
and succeeds sets the focus to the concept parsed from the head goal as it
stood when the cycle began; the head of the resulting queue may name a
different concept (as after a breakdown), so the focus does not always equal
the concept of the current head. -/
theorem focus_eq_prestep_head_concept (s : SimState) (r : Rat) (g : Str) (rest : List Str)
    (c : Str) (s2 : SimState) (ev : List LogEntry)
    (hact : s.goals.active = g :: rest) (hg : extractQuoted g = some c)
    (h : runSimulationCycle s r = Except.ok (s2, ev)) : s2.focus = c := by
  rw [runCycle_cons s r g rest hact, goalStep_eq_parsed s g rest r c hg] at h
  repeat' split at h
  · rename_i heq
    injection h with h2; injection h2 with hs he; subst hs
    exact deepenStep_focus _ _ _ _ _ _ _ heq
  · exact absurd h (by simp)
  · rename_i heq
    injection h with h2; injection h2 with hs he; subst hs
    exact breakStep_focus _ _ _ _ _ heq
  · exact absurd h (by simp)
  · injection h with h2; injection h2 with hs he; subst hs; rfl

/-- Witness for the amended claim C5: the first always-fail step from the
canonical snapshot keeps the focus on the parsed head concept. -/
theorem focus_eq_prestep_head_concept_witness :
    ({ state := { curiosity := 65, boredom := 0, pain := 25 },
       goals := { active := [mkDeepen (strL "belief system")], completed := [] },
       memory := initialSimState.memory,
       focus := strL "belief system" } : SimState).focus = strL "belief system" :=
  focus_eq_prestep_head_concept initialSimState 0 (mkDeepen (strL "belief system")) []
    (strL "belief system")
    { state := { curiosity := 65, boredom := 0, pain := 25 },
      goals := { active := [mkDeepen (strL "belief system")], completed := [] },
      memory := initialSimState.memory,
      focus := strL "belief system" }
    [⟨LogType.info, focusMsg (strL "belief system")⟩, ⟨LogType.warn, malformedMsg⟩]
    rfl (by decide) rfl

/-! ### Transactional failure (claim C6) -/

theorem deepenStep_error (s : SimState) (goal : Str) (rest : List Str) (c : Str) (r : Rat)
    (e : StepError) (h : deepenStep s goal rest c r = Except.error e) :
    e = StepError.unknownConcept c ∧ lookupNode s.memory.nodes c = none := by
  unfold deepenStep at h
  repeat' split at h
  · injection h
  · injection h
  · rename_i heq
    injection h with h2
    subst h2
    exact ⟨rfl, heq⟩
  · injection h

theorem breakStep_error (s : SimState) (rest : List Str) (c : Str)
    (e : StepError) (h : breakStep s rest c = Except.error e) :
    e = StepError.unknownConcept c ∧ lookupNode s.memory.nodes c = none := by
  unfold breakStep at h
  repeat' split at h
  · rename_i heq
    injection h with h2
    subst h2
    exact ⟨rfl, heq⟩
  · injection h

theorem goalStep_error (s : SimState) (g : Str) (rest : List Str) (r : Rat)
    (e : StepError) (h : goalStep s g rest r = Except.error e) :
    (e = StepError.malformedGoal ∧ extractQuoted g = none) ∨
    (∃ c, e = StepError.unknownConcept c ∧ lookupNode s.memory.nodes c = none) := by
  unfold goalStep at h
  repeat' split at h
  · rename_i heq
    injection h with h2
    subst h2
    exact Or.inl ⟨rfl, heq⟩
  · injection h
  · rename_i heq
    injection h with h2
    subst h2
    obtain ⟨he, hl⟩ := deepenStep_error _ _ _ _ _ _ heq
    exact Or.inr ⟨_, he, hl⟩
  · injection h
  · rename_i heq
    injection h with h2
    subst h2
    obtain ⟨he, hl⟩ := breakStep_error _ _ _ _ heq
    exact Or.inr ⟨_, he, hl⟩
  · injection h

/-- Claim C6: the step is transactional.  Whenever the cycle aborts with an
error the caller keeps its prior state completely unchanged, and the error is
either the unparseable-head-goal failure or a reference to a concept id
absent from `memory.nodes`. -/
theorem cycle_error_transactional (s : SimState) (r : Rat) (e : StepError)
    (h : runSimulationCycle s r = Except.error e) :
    applyStep s r = s ∧
    ((e = StepError.malformedGoal ∧
        ∃ g rest, s.goals.active = g :: rest ∧ extractQuoted g = none) ∨
     (∃ c, e = StepError.unknownConcept c ∧ lookupNode s.memory.nodes c = none)) := by
  constructor
  · unfold applyStep; rw [h]
  · rcases hact : s.goals.active with _ | ⟨g, rest⟩
    · rw [runCycle_nil s r hact] at h; injection h
    · rw [runCycle_cons s r g rest hact] at h
      rcases goalStep_error s g rest r e h with ⟨he, hp⟩ | hr2
      · exact Or.inl ⟨he, g, rest, hact ▸ rfl, hp⟩
      · exact Or.inr hr2

/-- Witness for claim C6: a state whose head goal has no quoted payload; the
cycle aborts and the held state is unchanged. -/
theorem cycle_error_transactional_witness :
    runSimulationCycle malformedState 0 = Except.error StepError.malformedGoal ∧
    (applyStep malformedState 0 = malformedState ∧
      ((StepError.malformedGoal = StepError.malformedGoal ∧
          ∃ g rest, malformedState.goals.active = g :: rest ∧ extractQuoted g = none) ∨
       (∃ c, StepError.malformedGoal = StepError.unknownConcept c ∧
          lookupNode malformedState.memory.nodes c = none))) :=
  ⟨rfl, cycle_error_transactional malformedState 0 StepError.malformedGoal rfl⟩

/-! ### The idle boredom cycle (claim C8) -/

theorem applyStep_idle_low (s : SimState) (r : Rat) (hact : s.goals.active = [])
    (hb : ¬ min 100 (s.state.boredom + 15) ≥ 75) :
    (applyStep s r).state.boredom = min 100 (s.state.boredom + 15) ∧
    (applyStep s r).state.curiosity = s.state.curiosity ∧
    (applyStep s r).state.pain = s.state.pain ∧
    (applyStep s r).goals = s.goals ∧
    (applyStep s r).memory = s.memory := by
  obtain ⟨f, ev, he⟩ := runCycle_idle_low s r hact hb
  rw [applyStep_eq_of_ok _ _ _ _ he]
  exact ⟨rfl, rfl, rfl, rfl, rfl⟩

/-- Claim C8: from any state with an empty active queue and boredom 0, under
any rng draws, each of the first four idle cycles raises boredom by exactly 15
and pushes no goal; on the fifth idle cycle boredom reaches 75, exactly one
`Expand knowledge` goal targeting the current focus is pushed onto `active`,
boredom resets to 0, and no wandering happens on that cycle (its events are
the idle event and the boredom-critical event only, and the focus is
unchanged). -/
theorem idle_boredom_cycle (s : SimState) (r1 r2 r3 r4 r5 : Rat)
    (hact : s.goals.active = []) (hb : s.state.boredom = 0) :
    (applyStep s r1).goals.active = [] ∧
    (applyStep s r1).state.boredom = 15 ∧
    (applyStep (applyStep s r1) r2).goals.active = [] ∧
    (applyStep (applyStep s r1) r2).state.boredom = 30 ∧
    (applyStep (applyStep (applyStep s r1) r2) r3).goals.active = [] ∧
    (applyStep (applyStep (applyStep s r1) r2) r3).state.boredom = 45 ∧
    (applyStep (applyStep (applyStep (applyStep s r1) r2) r3) r4).goals.active = [] ∧
    (applyStep (applyStep (applyStep (applyStep s r1) r2) r3) r4).state.boredom = 60 ∧
    (applyStep (applyStep (applyStep (applyStep (applyStep s r1) r2) r3) r4) r5).state.boredom
      = 0 ∧
    (applyStep (applyStep (applyStep (applyStep (applyStep s r1) r2) r3) r4) r5).goals.active =
      [mkExpand (applyStep (applyStep (applyStep (applyStep s r1) r2) r3) r4).focus] ∧
    (applyStep (applyStep (applyStep (applyStep (applyStep s r1) r2) r3) r4) r5).focus =
      (applyStep (applyStep (applyStep (applyStep s r1) r2) r3) r4).focus ∧
    stepEvents (applyStep (applyStep (applyStep (applyStep s r1) r2) r3) r4) r5 =
      [⟨LogType.info, idleMsg⟩, ⟨LogType.critical, noveltyMsg⟩] := by
  have h1 := applyStep_idle_low s r1 hact (by omega)
  have hact1 : (applyStep s r1).goals.active = [] := by rw [h1.2.2.2.1]; exact hact
  have hb1 : (applyStep s r1).state.boredom = 15 := by rw [h1.1]; omega
  have h2 := applyStep_idle_low (applyStep s r1) r2 hact1 (by omega)
  have hact2 : (applyStep (applyStep s r1) r2).goals.active = [] := by
    rw [h2.2.2.2.1]; exact hact1
  have hb2 : (applyStep (applyStep s r1) r2).state.boredom = 30 := by rw [h2.1]; omega
  have h3 := applyStep_idle_low (applyStep (applyStep s r1) r2) r3 hact2 (by omega)
  have hact3 : (applyStep (applyStep (applyStep s r1) r2) r3).goals.active = [] := by
    rw [h3.2.2.2.1]; exact hact2
  have hb3 : (applyStep (applyStep (applyStep s r1) r2) r3).state.boredom = 45 := by
    rw [h3.1]; omega
  have h4 := applyStep_idle_low (applyStep (applyStep (applyStep s r1) r2) r3) r4 hact3 (by omega)
  have hact4 : (applyStep (applyStep (applyStep (applyStep s r1) r2) r3) r4).goals.active = [] := by
    rw [h4.2.2.2.1]; exact hact3
  have hb4 : (applyStep (applyStep (applyStep (applyStep s r1) r2) r3) r4).state.boredom = 60 := by
    rw [h4.1]; omega
  have e5 := runCycle_idle_high (applyStep (applyStep (applyStep (applyStep s r1) r2) r3) r4) r5
    hact4 (by omega)
  have a5 := applyStep_eq_of_ok _ _ _ _ e5
  have v5 := stepEvents_eq_of_ok _ _ _ _ e5
  refine ⟨hact1, hb1, hact2, hb2, hact3, hb3, hact4, hb4, ?_, ?_, ?_, v5⟩
  · rw [a5]
  · rw [a5]
    show (applyStep (applyStep (applyStep (applyStep s r1) r2) r3) r4).goals.active ++ _ = _
    rw [hact4]
    rfl
  · rw [a5]

/-- Witness for claim C8: five idle cycles on a concrete goal-free state. -/
theorem idle_boredom_cycle_witness :
    (idleState.goals.active = [] ∧ idleState.state.boredom = 0) ∧
    (applyStep (applyStep (applyStep (applyStep idleState 0) 0) 0) 0).state.boredom = 60 ∧
    (applyStep (applyStep (applyStep (applyStep (applyStep idleState 0) 0) 0) 0) 0).goals.active =
      [mkExpand (applyStep (applyStep (applyStep (applyStep idleState 0) 0) 0) 0).focus] ∧
    stepEvents (applyStep (applyStep (applyStep (applyStep idleState 0) 0) 0) 0) 0 =
      [⟨LogType.info, idleMsg⟩, ⟨LogType.critical, noveltyMsg⟩] :=
  ⟨⟨rfl, rfl⟩,
   (idle_boredom_cycle idleState 0 0 0 0 0 rfl rfl).2.2.2.2.2.2.2.1,
   (idle_boredom_cycle idleState 0 0 0 0 0 rfl rfl).2.2.2.2.2.2.2.2.2.1,
   (idle_boredom_cycle idleState 0 0 0 0 0 rfl rfl).2.2.2.2.2.2.2.2.2.2.2⟩

/-! ### The bounded log (claim C9) -/

theorem logToSim_length (l : List LogEntry) (e : LogEntry) : (logToSim l e).length ≤ 21 := by
  unfold logToSim
  rw [List.length_append, List.length_drop]
  simp
  omega

theorem foldl_logToSim_length (init : List LogEntry) (es : List LogEntry)
    (hinit : init.length ≤ 21) : (es.foldl logToSim init).length ≤ 21 := by
  induction es generalizing init with
  | nil => exact hinit
  | cons e es ih => exact ih _ (logToSim_length init e)

theorem suffix_append_right {α : Type} {l1 l2 : List α} (t : List α) (h : l1 <:+ l2) :
    l1 ++ t <:+ l2 ++ t := by
  obtain ⟨u, hu⟩ := h
  exact ⟨u, by rw [← List.append_assoc, hu]⟩

theorem foldl_logToSim_suffix (init : List LogEntry) (es : List LogEntry) :
    es.foldl logToSim init <:+ init ++ es := by
  induction es generalizing init with
  | nil => simp
  | cons e es ih =>
      have h1 : logToSim init e <:+ init ++ [e] :=
        suffix_append_right [e] (List.drop_suffix _ init)
      have h2 : logToSim init e ++ es <:+ (init ++ [e]) ++ es := suffix_append_right es h1
      rw [List.append_assoc] at h2
      exact (ih (logToSim init e)).trans (by simpa using h2)

theorem foldl_logToSim_getLast (init : List LogEntry) (es : List LogEntry) (h : es ≠ []) :
    (es.foldl logToSim init).getLast? = es.getLast? := by
  induction es generalizing init with
  | nil => exact absurd rfl h
  | cons e es ih =>
      cases es with
      | nil =>
          show (logToSim init e).getLast? = _
          rw [logToSim]
          simp [List.getLast?_concat]
      | cons e2 es2 =>
          rw [List.foldl_cons, ih (logToSim init e) (by simp)]
          exact List.getLast?_cons_cons.symm

/-- Claim C9: starting from any log within capacity, appending any sequence of
entries through `logToSim` never leaves more than 21 entries; the result is a
suffix of the full chronological history (so only the oldest entries are
dropped and the surviving order is preserved), and the most recently appended
entry is always the last element. -/
theorem log_bounded_suffix_last (init : List LogEntry) (es : List LogEntry)
    (hinit : init.length ≤ 21) :
    (es.foldl logToSim init).length ≤ 21 ∧
    es.foldl logToSim init <:+ init ++ es ∧
    (es ≠ [] → (es.foldl logToSim init).getLast? = es.getLast?) :=
  ⟨foldl_logToSim_length init es hinit, foldl_logToSim_suffix init es,
   fun h => foldl_logToSim_getLast init es h⟩

/-- Witness for claim C9: twenty-five appends onto the initial log. -/
theorem log_bounded_suffix_last_witness :
    initialLog.length ≤ 21 ∧
    ((List.replicate 25 (⟨LogType.warn, malformedMsg⟩ : LogEntry)).foldl logToSim
      initialLog).length ≤ 21 ∧
    (List.replicate 25 (⟨LogType.warn, malformedMsg⟩ : LogEntry)).foldl logToSim initialLog <:+
      initialLog ++ List.replicate 25 ⟨LogType.warn, malformedMsg⟩ ∧
    (List.replicate 25 (⟨LogType.warn, malformedMsg⟩ : LogEntry) ≠ [] →
      ((List.replicate 25 (⟨LogType.warn, malformedMsg⟩ : LogEntry)).foldl logToSim
        initialLog).getLast? =
        (List.replicate 25 (⟨LogType.warn, malformedMsg⟩ : LogEntry)).getLast?) :=
  ⟨by decide, log_bounded_suffix_last initialLog _ (by decide)⟩

/-! ### The expand-knowledge goal is never handled (claim C10) -/

theorem runCycle_expand (s : SimState) (r : Rat) (c : Str) (rest : List Str)
    (hc : quoteChar ∉ c) (hact : s.goals.active = mkExpand c :: rest)
    (hnd : hasSub deepenPat (mkExpand c) = false)
    (hnb : hasSub breakPat (mkExpand c) = false) :
    runSimulationCycle s r =
      Except.ok ({ s with focus := c }, [⟨LogType.info, focusMsg c⟩]) := by
  rw [runCycle_cons s r _ rest hact,
    goalStep_eq_parsed s _ rest r c (extractQuoted_mkExpand c hc)]
  simp only [hnd, hnb, Bool.false_eq_true, if_false]

/-- Claim C10: a cycle on a state whose active head is an `Expand knowledge`
goal (with a parseable concept that matches neither dispatch pattern) leaves
the drives, both goal lists and the memory graph unchanged; its only effects
are setting the focus to the concept of the goal and emitting the single
goal-directed-focus `Info` event.  The goal is never removed, so every
subsequent cycle from the resulting state, under any rng draw, repeats exactly
the same behaviour. -/
theorem expand_goal_noop (s : SimState) (r : Rat) (c : Str) (rest : List Str)
    (hc : quoteChar ∉ c) (hact : s.goals.active = mkExpand c :: rest)
    (hnd : hasSub deepenPat (mkExpand c) = false)
    (hnb : hasSub breakPat (mkExpand c) = false) :
    runSimulationCycle s r =
      Except.ok ({ s with focus := c }, [⟨LogType.info, focusMsg c⟩]) ∧
    (∀ r2 : Rat, runSimulationCycle { s with focus := c } r2 =
      Except.ok ({ s with focus := c }, [⟨LogType.info, focusMsg c⟩])) := by
  refine ⟨runCycle_expand s r c rest hc hact hnd hnb, fun r2 => ?_⟩
  exact runCycle_expand { s with focus := c } r2 c rest hc hact hnd hnb

/-- Witness for claim C10: a concrete state holding an `Expand knowledge`
goal; the cycle only re-emits the focus event and never advances. -/
theorem expand_goal_noop_witness :
    runSimulationCycle expandState 0 =
      Except.ok ({ expandState with focus := strL "belief system" },
        [⟨LogType.info, focusMsg (strL "belief system")⟩]) ∧
    (∀ r2 : Rat, runSimulationCycle { expandState with focus := strL "belief system" } r2 =
      Except.ok ({ expandState with focus := strL "belief system" },
        [⟨LogType.info, focusMsg (strL "belief system")⟩])) :=
  expand_goal_noop expandState 0 (strL "belief system") [] (by decide) rfl
    (by decide) (by decide)

end HizawyeAI
